import Mathlib

/-
Verification of the itask terminal dashboard core (Rust sources under src/).
Shallow embedding: the job-worker log buffer loop, the job-start operation,
the menu tree navigation, the prompt state machine, the key-event routing and
the job-pane render pass are translated into executable Lean definitions and
the spec claims are settled against them.  Rust strings are modelled as Lean
lists of characters (the sources only ever hold ASCII text, where Rust byte
indices and character indices coincide).
-/

namespace ITask

/-! ## Bounded log buffer (src/main.rs, worker loop in Model::start_job)

The worker appends each line with `lock.push_back(l)` and then runs
`while lock.len() > 1000 { lock.pop_front(); }`.  A `VecDeque<String>` is
modelled as a `List String` whose head is the front of the deque. -/

/-- The eviction loop `while lock.len() > 1000 { lock.pop_front(); }`. -/
def evict (b : List String) : List String :=
  if _h : 1000 < b.length then evict b.tail else b
termination_by b.length
decreasing_by
  rw [List.length_tail]
  omega

/-- One worker iteration on an `Ok` line: `push_back` followed by the
eviction loop. -/
def pushLine (b : List String) (l : String) : List String :=
  evict (b ++ [l])

/-- The buffer contents after the worker has appended the lines `ls`, in
order, starting from the fresh empty buffer installed by `start_job`. -/
def runAppends (ls : List String) : List String :=
  List.foldl pushLine [] ls

theorem evict_eq (b : List String) : evict b = List.drop (b.length - 1000) b := by
  rw [evict]
  split
  case isTrue h =>
    rw [evict_eq b.tail]
    cases b with
    | nil => simp at h
    | cons a t =>
      simp only [List.tail_cons, List.length_cons]
      have ht : 1000 ≤ t.length := by
        simp only [List.length_cons] at h
        omega
      have harith : t.length + 1 - 1000 = (t.length - 1000) + 1 := by omega
      rw [harith, List.drop_succ_cons]
  case isFalse h =>
    have hz : b.length - 1000 = 0 := by omega
    rw [hz, List.drop_zero]
termination_by b.length
decreasing_by
  rw [List.length_tail]
  omega

theorem runAppends_eq (ls : List String) :
    runAppends ls = List.drop (ls.length - 1000) ls := by
  induction ls using List.reverseRecOn with
  | nil => rfl
  | append_singleton ls a ih =>
    have hfold : runAppends (ls ++ [a]) = pushLine (runAppends ls) a := by
      simp [runAppends, List.foldl_append]
    rw [hfold, ih, pushLine, evict_eq]
    by_cases h : ls.length ≤ 1000
    · have h0 : ls.length - 1000 = 0 := by omega
      simp only [h0, List.drop_zero]
    · push_neg at h
      have hlen : (List.drop (ls.length - 1000) ls).length = 1000 := by
        rw [List.length_drop]
        omega
      have hlen2 : (List.drop (ls.length - 1000) ls ++ [a]).length - 1000 = 1 := by
        simp only [List.length_append, List.length_singleton, hlen]
      rw [hlen2, List.drop_append_eq_append_drop, List.drop_append_eq_append_drop,
        List.drop_drop]
      have e1 : ls.length - 1000 + 1 = ls.length + 1 - 1000 := by omega
      have e2 : (ls ++ [a]).length - 1000 = ls.length + 1 - 1000 := by
        simp only [List.length_append, List.length_singleton]
      have e3 : (1 : Nat) - (List.drop (ls.length - 1000) ls).length = 0 := by
        rw [hlen]
      have e4 : ls.length + 1 - 1000 - ls.length = 0 := by omega
      rw [e1, e2, e3, e4]

/-- C1: for every sequence of line appends performed by the job worker into a
log buffer, after each append (that is, for every sequence `ls` of appends so
far) the buffer length equals `min (number of appends) 1000` and the contents
are exactly the last `min n 1000` appended lines in order (strict FIFO
eviction from the head). -/
theorem C1_log_buffer_fifo (ls : List String) :
    (runAppends ls).length = min ls.length 1000 ∧
    runAppends ls = List.drop (ls.length - 1000) ls := by
  refine ⟨?_, runAppends_eq ls⟩
  rw [runAppends_eq, List.length_drop]
  omega

/-! ## Job slots and Model::start_job (src/main.rs lines 46-92)

A job slot is the tuple `(String, Option<RwLock<VecDeque<String>>>)`: a
display title plus an optional handle to the log buffer of a running job.
`start_job` either rejects an occupied slot or installs a fresh buffer,
derives the truncated title and spawns the worker; the spawn is recorded as
a boolean so that "no process is spawned" is expressible. -/

structure JobSlot where
  title : String
  buffer : Option (List String)
deriving DecidableEq, Repr

/-- Title derivation in `start_job`: the Debug rendering of the command with
double quotes removed, truncated to the first 7 characters plus `"..."` when
longer than 10 characters. The Debug rendering of the `Command` value is
taken as the input string. -/
def jobTitle (cmdDebug : String) : String :=
  let t := cmdDebug.replace "\"" ""
  if 10 < t.length then t.take 7 ++ "..." else t

structure StartResult where
  result : Except String Unit
  slot : JobSlot
  spawned : Bool
deriving Repr

/-- `Model::start_job`: bails with "Job is already running." when the slot
already holds a buffer handle; otherwise installs a fresh empty buffer,
stores the derived title and spawns the worker thread. -/
def startJob (slot : JobSlot) (cmdDebug : String) : StartResult :=
  if slot.buffer.isSome then
    ⟨Except.error "Job is already running.", slot, false⟩
  else
    ⟨Except.ok (), ⟨jobTitle cmdDebug, some []⟩, true⟩

/-- C2: starting a job on an occupied slot returns the "already running"
error as a result value, spawns no process, and leaves the title, the buffer
handle and the buffer contents of the slot unchanged. -/
theorem C2_start_job_occupied (slot : JobSlot) (cmdDebug : String)
    (h : slot.buffer.isSome = true) :
    startJob slot cmdDebug =
      ⟨Except.error "Job is already running.", slot, false⟩ := by
  simp [startJob, h]

theorem C2_start_job_occupied_witness :
    startJob ⟨"cargo r...", some ["line one", "line two"]⟩ "cargo test" =
      ⟨Except.error "Job is already running.",
        ⟨"cargo r...", some ["line one", "line two"]⟩, false⟩ :=
  C2_start_job_occupied ⟨"cargo r...", some ["line one", "line two"]⟩ "cargo test" rfl

/-! ## Menu tree (src/ui/menu.rs)

`MenuItem` is the two-variant node type; boxed action closures are
represented by handler identifiers, interpreted on the dashboard model by
`runHandler` below, and `Menu::enter` returns the trace of invoked handler
identifiers so that "invokes the action exactly once" is expressible.
Panicking `unwrap()` calls are modelled by `Option`, `none` meaning a
panic. -/

inductive MenuItem where
  | Section (title : String) (children : List Nat) (parent : Option Nat)
  | Item (title : String) (handler : Nat) (parent : Option Nat)
deriving DecidableEq, Repr

def MenuItem.parent : MenuItem → Option Nat
  | .Section _ _ p => p
  | .Item _ _ p => p

/-- `MenuItem::items`: the child list of a Section, empty for an Item. -/
def MenuItem.items : MenuItem → List Nat
  | .Section _ cs _ => cs
  | .Item _ _ _ => []

def MenuItem.title : MenuItem → String
  | .Section t _ _ => t
  | .Item t _ _ => t

/-- `Menu(pub Vec<MenuItem>)`. -/
structure Menu where
  nodes : List MenuItem
deriving DecidableEq, Repr

/-- `Menu::up`: previous sibling via `position(..) .saturating_sub(1)`,
defaulting to `idx` itself when the lookup is out of range. -/
def Menu.up (m : Menu) (idx : Nat) : Option Nat := do
  let it ← m.nodes[idx]?
  let p ← it.parent
  let pit ← m.nodes[p]?
  let cs := pit.items
  let pos ← cs.findIdx? (fun i => i == idx)
  pure ((cs[pos - 1]?).getD idx)

/-- `Menu::down`: next sibling via `position(..) + 1`, defaulting to `idx`
itself when the lookup is out of range. -/
def Menu.down (m : Menu) (idx : Nat) : Option Nat := do
  let it ← m.nodes[idx]?
  let p ← it.parent
  let pit ← m.nodes[p]?
  let cs := pit.items
  let pos ← cs.findIdx? (fun i => i == idx)
  pure ((cs[pos + 1]?).getD idx)

/-- `Menu::enter`: on a Section, the first child (or `idx` when childless);
on an Item, invoke the handler and keep `idx`.  The second component is the
trace of handler identifiers invoked during the call. -/
def Menu.enter (m : Menu) (idx : Nat) : Option (Nat × List Nat) := do
  let it ← m.nodes[idx]?
  match it with
  | .Section _ cs _ => pure (cs.head?.getD idx, [])
  | .Item _ h _ => pure (idx, [h])

/-- `Menu::back`: `parent.map(|p| nodes[p].parent().map(|_| p)).flatten()` —
the parent of `idx`, kept only when that parent itself has a parent.  The
outer `Option` models the `unwrap` panics, the inner one is the returned
`Option<usize>`. -/
def Menu.back (m : Menu) (idx : Nat) : Option (Option Nat) := do
  let it ← m.nodes[idx]?
  match it.parent with
  | none => pure none
  | some p => do
      let pit ← m.nodes[p]?
      pure (pit.parent.map fun _ => p)

/-- `Menu::first`: first child of the first node with a non-empty child
list. -/
def Menu.first (m : Menu) : Option Nat := do
  let it ← m.nodes.find? (fun i => !i.items.isEmpty)
  it.items.head?

/-- The `main_menu()` tree of src/ui/menu.rs with the `menu!` macro expanded:
nodes are appended in construction order and every child is pushed into the
child list of its parent.  Handler identifiers: 0, 1, 2 are the no-op leaf
closures, 3 is the "Set ENV" closure that opens the secret Yubikey prompt. -/
def mainMenu : Menu :=
  ⟨[ MenuItem.Section "Jobs" [1, 3, 6] none,
     MenuItem.Section "Run (Server)" [2] (some 0),
     MenuItem.Item "Sites (bin)" 0 (some 1),
     MenuItem.Section "Build Frontend" [4, 5] (some 0),
     MenuItem.Item "Sites (wasm)" 1 (some 3),
     MenuItem.Item "Something (wasm+elm)" 2 (some 3),
     MenuItem.Section "Configure iTask" [7] (some 0),
     MenuItem.Item "Set ENV" 3 (some 6) ]⟩

/-- C3, counterexample: the claim says `back(idx)` returns the parent of the
parent of `idx`.  At node 2 ("Sites (bin)", parent 1 "Run (Server)", which
has parent 0 "Jobs"), the code returns the parent 1 itself, not the
grandparent 0, so the claim as stated is false. -/
theorem C3_back_counterexample :
    (mainMenu.nodes[2]?).bind MenuItem.parent = some 1 ∧
    ((mainMenu.nodes[2]?).bind MenuItem.parent).bind
      (fun p => (mainMenu.nodes[p]?).bind MenuItem.parent) = some 0 ∧
    mainMenu.back 2 = some (some 1) ∧
    (some (some 1) : Option (Option Nat)) ≠ some (some 0) := by
  decide

/-- C3, amended: `back(idx)` returns the parent of `idx` (one visible level
up), kept only when that parent itself has a parent; it returns nothing when
the parent of `idx` is the parentless synthetic root, that is when `idx` is
already at the top-visible level. -/
theorem C3_back_amended (m : Menu) (idx p : Nat) (it pit : MenuItem)
    (hit : m.nodes[idx]? = some it) (hp : it.parent = some p)
    (hpit : m.nodes[p]? = some pit) :
    (pit.parent.isSome = true → m.back idx = some (some p)) ∧
    (pit.parent = none → m.back idx = some none) := by
  constructor
  · intro hg
    obtain ⟨g, hgp⟩ := Option.isSome_iff_exists.mp hg
    simp [Menu.back, hit, hp, hpit, hgp]
  · intro hg
    simp [Menu.back, hit, hp, hpit, hg]

theorem C3_back_amended_witness :
    mainMenu.back 2 = some (some 1) ∧ mainMenu.back 1 = some none :=
  ⟨(C3_back_amended mainMenu 2 1 (MenuItem.Item "Sites (bin)" 0 (some 1))
      (MenuItem.Section "Run (Server)" [2] (some 0)) rfl rfl rfl).1 rfl,
   (C3_back_amended mainMenu 1 0 (MenuItem.Section "Run (Server)" [2] (some 0))
      (MenuItem.Section "Jobs" [1, 3, 6] none) rfl rfl rfl).2 rfl⟩

/-- C6: `enter(idx)` on a Section with children returns the first child and
invokes nothing; on a childless Section it returns `idx` and invokes
nothing; on a Leaf it invokes the action of the leaf exactly once (the
invocation trace is exactly that one handler) and returns `idx`
unchanged. -/
theorem C6_enter_cases (m : Menu) (idx : Nat) :
    (∀ t c cs par, m.nodes[idx]? = some (MenuItem.Section t (c :: cs) par) →
      m.enter idx = some (c, [])) ∧
    (∀ t par, m.nodes[idx]? = some (MenuItem.Section t [] par) →
      m.enter idx = some (idx, [])) ∧
    (∀ t hdl par, m.nodes[idx]? = some (MenuItem.Item t hdl par) →
      m.enter idx = some (idx, [hdl])) := by
  refine ⟨?_, ?_, ?_⟩
  · intro t c cs par hn
    simp [Menu.enter, hn]
  · intro t par hn
    simp [Menu.enter, hn]
  · intro t hdl par hn
    simp [Menu.enter, hn]

theorem C6_enter_cases_witness :
    mainMenu.enter 1 = some (2, []) ∧ mainMenu.enter 2 = some (2, [0]) :=
  ⟨(C6_enter_cases mainMenu 1).1 "Run (Server)" 2 [] (some 0) rfl,
   (C6_enter_cases mainMenu 2).2.2 "Sites (bin)" 0 (some 1) rfl⟩

/-- If `findIdx?` (started at `s`) finds index `i`, then `s ≤ i` and the
element at offset `i - s` is the searched value. -/
theorem findIdx?_self_aux (idx : Nat) (cs : List Nat) (s i : Nat)
    (h : List.findIdx? (fun x => x == idx) cs s = some i) :
    s ≤ i ∧ cs[i - s]? = some idx := by
  induction cs generalizing s with
  | nil => simp [List.findIdx?] at h
  | cons a t ih =>
    rw [List.findIdx?_cons] at h
    by_cases hp : (a == idx) = true
    · rw [if_pos hp] at h
      have hsi : s = i := by
        injection h
      subst hsi
      refine ⟨Nat.le_refl s, ?_⟩
      have ha : a = idx := eq_of_beq hp
      simp [Nat.sub_self, ha]
    · rw [if_neg hp] at h
      obtain ⟨hsi, hget⟩ := ih (s + 1) h
      refine ⟨by omega, ?_⟩
      have hstep : i - s = (i - (s + 1)) + 1 := by omega
      rw [hstep]
      simpa using hget

/-- C7: `up`/`down` move to the previous/next sibling in the child list of
the parent of `idx`, and return `idx` unchanged at the first/last sibling
(no wraparound).  `i` is the position of `idx` in that child list. -/
theorem C7_up_down_siblings (m : Menu) (idx p i : Nat) (it pit : MenuItem)
    (cs : List Nat)
    (hit : m.nodes[idx]? = some it) (hp : it.parent = some p)
    (hpit : m.nodes[p]? = some pit) (hcs : pit.items = cs)
    (hpos : cs.findIdx? (fun x => x == idx) = some i) :
    (∀ j, cs[i + 1]? = some j → m.down idx = some j) ∧
    (cs.length ≤ i + 1 → m.down idx = some idx) ∧
    (i = 0 → m.up idx = some idx) ∧
    (∀ j, 0 < i → cs[i - 1]? = some j → m.up idx = some j) := by
  have hdown : m.down idx = some ((cs[i + 1]?).getD idx) := by
    simp [Menu.down, hit, hp, hpit, hcs, hpos]
  have hup : m.up idx = some ((cs[i - 1]?).getD idx) := by
    simp [Menu.up, hit, hp, hpit, hcs, hpos]
  refine ⟨?_, ?_, ?_, ?_⟩
  · intro j hj
    rw [hdown, hj]
    rfl
  · intro hlen
    rw [hdown, List.getElem?_eq_none hlen]
    rfl
  · intro hi
    subst hi
    have h0 := (findIdx?_self_aux idx cs 0 0 hpos).2
    simp only [Nat.sub_zero] at h0
    rw [hup]
    simp [h0]
  · intro j _ hj
    rw [hup, hj]
    rfl

theorem C7_up_down_siblings_witness :
    mainMenu.down 3 = some 6 ∧ mainMenu.up 3 = some 1 ∧
    mainMenu.down 6 = some 6 ∧ mainMenu.up 1 = some 1 := by
  have h3 := C7_up_down_siblings mainMenu 3 0 1
    (MenuItem.Section "Build Frontend" [4, 5] (some 0))
    (MenuItem.Section "Jobs" [1, 3, 6] none) [1, 3, 6] rfl rfl rfl rfl rfl
  have h6 := C7_up_down_siblings mainMenu 6 0 2
    (MenuItem.Section "Configure iTask" [7] (some 0))
    (MenuItem.Section "Jobs" [1, 3, 6] none) [1, 3, 6] rfl rfl rfl rfl rfl
  have h1 := C7_up_down_siblings mainMenu 1 0 0
    (MenuItem.Section "Run (Server)" [2] (some 0))
    (MenuItem.Section "Jobs" [1, 3, 6] none) [1, 3, 6] rfl rfl rfl rfl rfl
  exact ⟨h3.1 6 rfl, h3.2.2.2 1 (by decide) rfl, h6.2.1 (by decide),
    h1.2.2.1 rfl⟩

/-! ## Prompt state machine (src/ui/prompt.rs)

`Prompt.state` is the `(usize, String, String)` triple: cursor, text,
error.  The boxed submit callback is a handler identifier interpreted by
`promptHandler`.  `Prompt::input` mutates the state; panicking string
operations (`String::remove`, `String::insert` out of range) are modelled by
`none`. -/

inductive KeyCode where
  | Backspace
  | Left
  | Right
  | Home
  | End
  | Delete
  | Enter
  | Esc
  | Up
  | Down
  | Char (c : Char)
  | other
deriving DecidableEq, Repr

structure PromptState where
  cursor : Nat
  value : List Char
  error : String
deriving DecidableEq, Repr

structure Prompt where
  title : String
  secret : Bool
  hid : Nat
  state : PromptState
deriving DecidableEq, Repr

/-- The only prompt submit callback in the sources is the "Set ENV" closure
`|_pin| Err("Invalid pin")`, given identifier 0; every other identifier is
unused and taken as an accepting callback. -/
def promptHandler (hid : Nat) (_v : List Char) : Except String Unit :=
  match hid with
  | 0 => Except.error "Invalid pin"
  | _ => Except.ok ()

/-- `Prompt::input`: one key of modal editing.  `none` models an
out-of-bounds panic of `String::remove` / `String::insert`. -/
def promptInput (handler : List Char → Except String Unit) (st : PromptState)
    (k : KeyCode) : Option PromptState :=
  match k with
  | .Backspace =>
      if 0 < st.cursor then
        if st.cursor - 1 < st.value.length then
          some { st with value := st.value.eraseIdx (st.cursor - 1),
                         cursor := st.cursor - 1 }
        else none
      else some st
  | .Left =>
      some (if 0 < st.cursor then { st with cursor := st.cursor - 1 } else st)
  | .Right =>
      some (if st.cursor < st.value.length then
        { st with cursor := st.cursor + 1 } else st)
  | .Home => some { st with cursor := 0 }
  | .End => some { st with cursor := st.value.length }
  | .Delete =>
      if st.cursor < st.value.length then
        some { st with value := st.value.eraseIdx st.cursor }
      else none
  | .Char c =>
      if st.cursor ≤ st.value.length then
        some { st with value := st.value.insertIdx st.cursor c,
                       cursor := st.cursor + 1 }
      else none
  | .Enter =>
      match handler st.value with
      | Except.error e => some { st with error := e }
      | Except.ok _ => some st
  | _ => some st

/-- C4: the claim says a Delete key with the cursor at the end of the text
is a guarded no-op.  The code calls `value.remove(*cursor)` unguarded, which
panics when `cursor == value.len()` (modelled by `none`); with the cursor
inside the text it does remove the character at the cursor. -/
theorem C4_delete_at_end_panics :
    promptInput (promptHandler 0) ⟨3, ['a', 'b', 'c'], ""⟩ KeyCode.Delete
        = none ∧
    promptInput (promptHandler 0) ⟨1, ['a', 'b', 'c'], ""⟩ KeyCode.Delete
        = some ⟨1, ['a', 'c'], ""⟩ := by
  decide

/-! ## Input field rendering (src/ui/input.rs)

`Input::render` produces a line of three spans; the rendered line is
modelled as the list of its characters.  `area.columns().count()` is the
`width` parameter.  Out-of-bounds byte slicing (`s[..c]`, `val[offset..]`)
panics in Rust and is modelled by `none`. -/

/-- `add_cursor`: text before the cursor, the character under the cursor
(a space at end of text), text after the cursor. -/
def add_cursor (s : List Char) (c : Nat) : Option (List Char) :=
  if c ≤ s.length then
    some (s.take c ++ [s.getD c ' '] ++
      (if c = s.length then [] else s.drop (c + 1)))
  else none

/-- `add_reveal_cursor`: like `add_cursor` but the character shown under the
cursor is the supplied `cc` (the underlying unmasked character). -/
def add_reveal_cursor (s : List Char) (c : Nat) (cc : Char) :
    Option (List Char) :=
  if c ≤ s.length then
    some (s.take c ++ [cc] ++
      (if c = s.length then [] else s.drop (c + 1)))
  else none

/-- `Input::render`: when secret, every character of the value is first
replaced by the mask glyph; a horizontal-scroll offset is applied when the
field is wider than the area and the cursor is past it; finally one of the
two cursor helpers builds the rendered line. -/
def renderInput (secret : Bool) (width cursor : Nat) (value : List Char) :
    Option (List Char) :=
  let val := if secret then List.replicate value.length '*' else value
  let offset :=
    if width < val.length + 3 ∧ width < cursor then cursor + 3 - width else 0
  if offset ≤ val.length then
    let slice := val.drop offset
    if secret then
      add_reveal_cursor slice (cursor - offset)
        (value.getD (cursor - offset) ' ')
    else
      add_cursor slice (cursor - offset)
  else none

/-- C9, counterexample: the claim says the number of mask glyphs equals the
length of the underlying text.  For the secret prompt text "hunter2"
(length 7) with the cursor at 0 in a wide area, the rendered field is the
revealed character followed by six mask glyphs: only 6 masks, not 7. -/
theorem C9_mask_count_counterexample :
    renderInput true 80 0 "hunter2".toList =
        some ('h' :: List.replicate 6 '*') ∧
    ('h' :: List.replicate 6 '*').count '*' = 6 ∧
    "hunter2".toList.length = 7 ∧ (6 : Nat) ≠ 7 := by
  decide

/-- Every position other than `k` in `replicate k '*' ++ cc :: replicate m
'*'` holds the mask glyph. -/
theorem reveal_off_cursor (k m pos : Nat) (cc ch : Char) (hne : pos ≠ k)
    (hg : (List.replicate k '*' ++ cc :: List.replicate m '*')[pos]?
      = some ch) :
    ch = '*' := by
  induction k generalizing pos with
  | zero =>
    cases pos with
    | zero => exact absurd rfl hne
    | succ q =>
      simp only [List.replicate_zero, List.nil_append,
        List.getElem?_cons_succ, List.getElem?_replicate] at hg
      split at hg
      · exact (Option.some_inj.mp hg).symm
      · exact absurd hg (by simp)
  | succ k ih =>
    cases pos with
    | zero =>
      simp only [List.replicate_succ, List.cons_append,
        List.getElem?_cons_zero] at hg
      exact (Option.some_inj.mp hg).symm
    | succ q =>
      simp only [List.replicate_succ, List.cons_append,
        List.getElem?_cons_succ] at hg
      exact ih q (by omega) hg

/-- Position `k` in `replicate k '*' ++ cc :: replicate m '*'` holds the
revealed character `cc`. -/
theorem reveal_at_cursor (k m : Nat) (cc : Char) :
    (List.replicate k '*' ++ cc :: List.replicate m '*')[k]? = some cc := by
  induction k with
  | zero => simp
  | succ k ih => simpa [List.replicate_succ] using ih

/-- Mask-glyph count of the rendered secret line. -/
theorem reveal_count (k m : Nat) (cc : Char) (hcc : ¬cc = '*') :
    (List.replicate k '*' ++ cc :: List.replicate m '*').count '*'
      = k + m := by
  simp [List.count_append, List.count_cons, List.count_replicate, hcc]

/-- C9, amended: for a secret prompt rendered without horizontal scrolling,
every rendered position other than the cursor shows the mask glyph, the
cursor position shows the underlying character (a space at end of text), and
the number of mask glyphs equals the text length when the cursor is at the
end of the text and the text length minus one otherwise (the character under
the cursor is revealed instead of masked). -/
theorem C9_secret_render_amended (value : List Char) (cursor width : Nat)
    (hc : cursor ≤ value.length) (hw : value.length + 3 ≤ width)
    (hstar : '*' ∉ value) :
    ∃ g, renderInput true width cursor value = some g ∧
      (∀ pos ch, g[pos]? = some ch → pos ≠ cursor → ch = '*') ∧
      g[cursor]? = some (value.getD cursor ' ') ∧
      g.count '*' =
        (if cursor = value.length then value.length
         else value.length - 1) := by
  have hnc : ¬width < value.length + 3 := by omega
  have hg : renderInput true width cursor value =
      some (List.replicate cursor '*' ++
        value.getD cursor ' ' ::
          List.replicate (value.length - (cursor + 1)) '*') := by
    by_cases hce : cursor = value.length
    · have h0 : value.length - (cursor + 1) = 0 := by omega
      have hnone : value[value.length]? = none :=
        List.getElem?_eq_none (Nat.le_refl _)
      subst hce
      simp [renderInput, add_reveal_cursor, hnc, h0, hnone,
        List.take_replicate, Nat.min_self]
    · have hlt : cursor < value.length := by omega
      simp [renderInput, add_reveal_cursor, hnc, hc, hce,
        List.take_replicate, List.drop_replicate, Nat.min_eq_left hc]
  refine ⟨_, hg, ?_, ?_, ?_⟩
  · intro pos ch hch hne
    exact reveal_off_cursor cursor (value.length - (cursor + 1)) pos
      (value.getD cursor ' ') ch hne hch
  · exact reveal_at_cursor cursor (value.length - (cursor + 1))
      (value.getD cursor ' ')
  · by_cases hce : cursor = value.length
    · have hsp : value.getD cursor ' ' = ' ' := by
        rw [List.getD_eq_getElem?_getD, List.getElem?_eq_none (by omega)]
        rfl
      rw [hsp, if_pos hce, reveal_count _ _ _ (by decide)]
      omega
    · have hlt : cursor < value.length := by omega
      have hch : value.getD cursor ' ' = value[cursor] :=
        List.getD_eq_getElem value ' ' hlt
      have hmem : value[cursor] ∈ value := List.getElem_mem hlt
      have hne : ¬value.getD cursor ' ' = '*' := by
        rw [hch]
        intro hcontr
        exact hstar (hcontr ▸ hmem)
      rw [if_neg hce, reveal_count _ _ _ hne]
      omega

theorem C9_secret_render_amended_witness :
    ∃ g, renderInput true 80 3 "hunter2".toList = some g ∧
      (∀ pos ch, g[pos]? = some ch → pos ≠ 3 → ch = '*') ∧
      g[3]? = some ("hunter2".toList.getD 3 ' ') ∧
      g.count '*' =
        (if 3 = "hunter2".toList.length then "hunter2".toList.length
         else "hunter2".toList.length - 1) :=
  C9_secret_render_amended "hunter2".toList 3 80 (by decide) (by decide)
    (by decide)

/-! ## Dashboard controller and event routing (src/main.rs)

`Model` holds the two job slots, the optional prompt, the optional menu
cursor and the quit flag.  `keys` handles one key event that has arrived;
`none` models a panic inside the handling. -/

structure Model where
  job1 : JobSlot
  job2 : JobSlot
  prompt : Option Prompt
  menu : Option Nat
  quit : Bool
deriving DecidableEq, Repr

/-- Effect of a leaf handler on the dashboard state.  Handlers 0, 1 and 2
are the no-op closures of `main_menu()`; handler 3 is the "Set ENV" closure
that installs the secret Yubikey prompt with the default (empty) editing
state. -/
def runHandler (hdl : Nat) (m : Model) : Model :=
  if hdl = 3 then
    { m with prompt := some ⟨"Enter your Yubikey pin", true, 0, ⟨0, [], ""⟩⟩ }
  else m

def runHandlers (hs : List Nat) (m : Model) : Model :=
  hs.foldl (fun acc hdl => runHandler hdl acc) m

/-- `Model::keys`, handling one key event.  While a prompt is present, Esc
removes it (the subsequent `as_mut().inspect(..)` then sees `None` and does
not deliver the key) and any other key is delivered to `Prompt::input`; the
menu match is never reached.  Without a prompt, the key drives the menu and
the quit flag. -/
def keys (m : Model) (k : KeyCode) : Option Model :=
  match m.prompt with
  | some p =>
      if k = KeyCode.Esc then some { m with prompt := none }
      else
        (promptInput (promptHandler p.hid) p.state k).map
          fun st => { m with prompt := some { p with state := st } }
  | none =>
      match k with
      | .Char c =>
          if c = 'j' then
            match m.menu with
            | none => mainMenu.first.map fun f => { m with menu := some f }
            | some _ => some { m with menu := none }
          else if c = 'q' then some { m with quit := true }
          else some m
      | .Esc =>
          match m.menu with
          | some idx => (mainMenu.back idx).map fun r => { m with menu := r }
          | none => some m
      | .Up =>
          match m.menu with
          | some idx =>
              (mainMenu.up idx).map fun r => { m with menu := some r }
          | none => some m
      | .Down =>
          match m.menu with
          | some idx =>
              (mainMenu.down idx).map fun r => { m with menu := some r }
          | none => some m
      | .Enter =>
          match m.menu with
          | some idx =>
              (mainMenu.enter idx).map fun r =>
                { runHandlers r.2 m with menu := some r.1 }
          | none => some m
      | _ => some m

/-- C5: while a prompt is active every key event is delivered to the prompt
and never reaches menu handling (only the prompt field of the model can
change, via `Prompt::input`); the single exception is Esc, which removes the
prompt and is consumed without being delivered to the prompt or to the
menu. -/
theorem C5_prompt_routing (m : Model) (p : Prompt) (k : KeyCode)
    (hp : m.prompt = some p) :
    (k = KeyCode.Esc → keys m k = some { m with prompt := none }) ∧
    (k ≠ KeyCode.Esc → keys m k =
      (promptInput (promptHandler p.hid) p.state k).map
        fun st => { m with prompt := some { p with state := st } }) := by
  constructor
  · intro hk
    subst hk
    simp [keys, hp]
  · intro hk
    simp [keys, hp, hk]

theorem C5_prompt_routing_witness :
    keys ⟨⟨"", none⟩, ⟨"", none⟩,
        some ⟨"Enter your Yubikey pin", true, 0, ⟨1, ['4', '2'], ""⟩⟩,
        some 1, false⟩ KeyCode.Esc =
      some ⟨⟨"", none⟩, ⟨"", none⟩, none, some 1, false⟩ ∧
    keys ⟨⟨"", none⟩, ⟨"", none⟩,
        some ⟨"Enter your Yubikey pin", true, 0, ⟨1, ['4', '2'], ""⟩⟩,
        some 1, false⟩ KeyCode.Down =
      some ⟨⟨"", none⟩, ⟨"", none⟩,
        some ⟨"Enter your Yubikey pin", true, 0, ⟨1, ['4', '2'], ""⟩⟩,
        some 1, false⟩ :=
  ⟨(C5_prompt_routing _ ⟨"Enter your Yubikey pin", true, 0, ⟨1, ['4', '2'], ""⟩⟩
      KeyCode.Esc rfl).1 rfl,
   (C5_prompt_routing _ ⟨"Enter your Yubikey pin", true, 0, ⟨1, ['4', '2'], ""⟩⟩
      KeyCode.Down rfl).2 (by decide)⟩

/-- C8: from an empty active prompt, typing a, b, c, then Left, Left,
Backspace yields the text "bc" with the cursor at 0; and from any model
with an active prompt, whatever its state, the Esc key leaves no active
prompt, discarding the entered text and the error. -/
theorem C8_prompt_editing_and_escape :
    List.foldlM (promptInput (promptHandler 0)) ⟨0, [], ""⟩
        [KeyCode.Char 'a', KeyCode.Char 'b', KeyCode.Char 'c',
         KeyCode.Left, KeyCode.Left, KeyCode.Backspace]
      = some ⟨0, ['b', 'c'], ""⟩ ∧
    ∀ (m : Model) (p : Prompt), m.prompt = some p →
      keys m KeyCode.Esc = some { m with prompt := none } := by
  constructor
  · decide
  · intro m p hp
    simp [keys, hp]

theorem C8_prompt_editing_and_escape_witness :
    keys ⟨⟨"", none⟩, ⟨"", none⟩,
        some ⟨"Enter your Yubikey pin", true, 0, ⟨2, ['h', 'i'], "Invalid pin"⟩⟩,
        none, false⟩ KeyCode.Esc =
      some ⟨⟨"", none⟩, ⟨"", none⟩, none, none, false⟩ :=
  C8_prompt_editing_and_escape.2 _
    ⟨"Enter your Yubikey pin", true, 0, ⟨2, ['h', 'i'], "Invalid pin"⟩⟩ rfl

/-! ## Job pane rendering (src/main.rs, Model::render_jobs) -/

structure Pane where
  title : String
  lines : List String
deriving DecidableEq, Repr

/-- `Model::render_jobs`: one pane per occupied slot, top to bottom.  As in
the source, the branch for the second slot reads `self.job1` for both the
title and the log buffer. -/
def render_jobs (m : Model) : List Pane :=
  let j1 := m.job1.buffer.isSome
  let j2 := m.job2.buffer.isSome
  (if j1 then [⟨m.job1.title, m.job1.buffer.getD []⟩] else []) ++
  (if j2 then [⟨m.job1.title, m.job1.buffer.getD []⟩] else [])

/-- C10: when both job slots hold a buffer handle, the second pane is drawn
from the title and the log buffer of slot 1, and the title and buffer
contents of slot 2 are never read: the output is unchanged under any
replacement of them. -/
theorem C10_second_pane_reads_slot1 (m : Model) (b1 : List String)
    (h1 : m.job1.buffer = some b1) (h2 : m.job2.buffer.isSome = true) :
    render_jobs m = [⟨m.job1.title, b1⟩, ⟨m.job1.title, b1⟩] ∧
    ∀ t2 b2, render_jobs { m with job2 := ⟨t2, some b2⟩ } = render_jobs m := by
  constructor
  · simp [render_jobs, h1, h2]
  · intro t2 b2
    simp [render_jobs, h1, h2]

theorem C10_second_pane_reads_slot1_witness :
    render_jobs ⟨⟨"cargo r...", some ["out 1"]⟩, ⟨"npm run...", some ["other"]⟩,
        none, none, false⟩ =
      [⟨"cargo r...", ["out 1"]⟩, ⟨"cargo r...", ["out 1"]⟩] ∧
    render_jobs ⟨⟨"cargo r...", some ["out 1"]⟩, ⟨"changed", some ["x", "y"]⟩,
        none, none, false⟩ =
      render_jobs ⟨⟨"cargo r...", some ["out 1"]⟩, ⟨"npm run...", some ["other"]⟩,
        none, none, false⟩ :=
  ⟨(C10_second_pane_reads_slot1
      ⟨⟨"cargo r...", some ["out 1"]⟩, ⟨"npm run...", some ["other"]⟩, none,
        none, false⟩ ["out 1"] rfl rfl).1,
   (C10_second_pane_reads_slot1
      ⟨⟨"cargo r...", some ["out 1"]⟩, ⟨"npm run...", some ["other"]⟩, none, none,
        false⟩ ["out 1"] rfl rfl).2 "changed" ["x", "y"]⟩

end ITask
